import Mathlib

/-!
Verification of the raydium-client-dashboard core against its specification.

Shallow embedding conventions:
* Machine floats are idealised as exact rationals (ℚ); Python `None`/`NaN`
  values are an `Option` layer on top.
* Timestamps in the cache layer are integer seconds; timestamps in the
  data-processing layer are natural-number day counts since 1970-01-01
  (a Thursday), so Monday-start weeks are the buckets of
  pandas `to_period('W').start_time`.
* JSON payloads are opaque strings; the `json.dumps`/`json.loads` round trip
  is the identity.
* sqlite access is a pure association store; a raised sqlite/storage
  exception is modelled with `Except`.
* Python string formatting `%.Nf` is modelled by exact round-half-even
  rendering of the rational value (faithful on the decimally-exact values
  the claims exercise).
-/

attribute [local semireducible] Rat.add Rat.mul Rat.sub Rat.inv

namespace Raydium

/-! ### Generic helpers -/

instance {ε α : Type} [DecidableEq ε] [DecidableEq α] : DecidableEq (Except ε α) :=
  fun a b =>
    match a, b with
    | .ok x, .ok y =>
      if h : x = y then isTrue (by rw [h])
      else isFalse (by intro hh; injection hh; exact h (by assumption))
    | .ok _, .error _ => isFalse (by intro h; cases h)
    | .error _, .ok _ => isFalse (by intro h; cases h)
    | .error x, .error y =>
      if h : x = y then isTrue (by rw [h])
      else isFalse (by intro hh; injection hh; exact h (by assumption))

/-- First-occurrence deduplication (pandas `Series.unique` keeps the first
occurrence of each value, in order). `seen` accumulates already-emitted
values. -/
def uniqueFirstAux [DecidableEq α] (seen : List α) : List α → List α
  | [] => []
  | a :: rest =>
    if a ∈ seen then uniqueFirstAux seen rest
    else a :: uniqueFirstAux (a :: seen) rest

/-- pandas `unique`: distinct values in first-appearance order. -/
def uniqueFirst [DecidableEq α] (l : List α) : List α := uniqueFirstAux [] l

/-- Is `needle` a leading segment of `hay`? (char-list primitive for Python
`in` on strings). -/
def leadSeg : List Char → List Char → Bool
  | [], _ => true
  | _ :: _, [] => false
  | a :: as, b :: bs => a = b && leadSeg as bs

/-- Python `needle in hay` for strings, on char lists. -/
def hasSub (needle : List Char) : List Char → Bool
  | [] => needle.isEmpty
  | b :: bs => leadSeg needle (b :: bs) || hasSub needle bs

/-- Python `str.lower()` (ASCII is all the source uses). -/
def lowerStr (s : String) : String := String.mk (s.data.map Char.toLower)

/-! ### Numeric rendering (Python `f"{x:.Nf}"` on exact values) -/

/-- Round to the nearest integer, ties to even (the rounding used by Python
float formatting, idealised to exact rationals). -/
def roundHalfEven (x : ℚ) : ℤ :=
  let f := ⌊x⌋
  if x - f < 1/2 then f
  else if (1 : ℚ)/2 < x - f then f + 1
  else if f % 2 = 0 then f else f + 1

/-- Decimal rendering of `fp` left-padded with zeros to `d` digits. -/
def zeroPad (d : ℕ) (fp : ℕ) : String :=
  let s := toString fp
  String.mk (List.replicate (d - s.length) '0') ++ s

/-- Python `f"{q:.df}"`: fixed-point rendering with `d` decimals,
round half to even, keeping the sign of the input value. -/
def fmtFixed (q : ℚ) (d : ℕ) : String :=
  let n := (roundHalfEven (|q| * (10 : ℚ) ^ d)).toNat
  let sign := if q < 0 then "-" else ""
  if d = 0 then sign ++ toString (n / 10 ^ d)
  else sign ++ toString (n / 10 ^ d) ++ "." ++ zeroPad d (n % 10 ^ d)

/-! ### src/database.py — DatabaseManager -/

/-- One sqlite row of a cache table: identifying columns, the serialized
payload, and `created_at` (integer seconds). -/
structure CacheRow where
  table : String
  ident : List (String × String)
  payload : String
  created_at : ℤ
deriving DecidableEq

/-- The whole sqlite database: the rows of all three cache tables.
The UNIQUE constraints hold by construction (`cache_data` replaces). -/
structure Store where
  rows : List CacheRow
deriving DecidableEq

/-- `SELECT ... FROM table WHERE identifier` returning the first row. -/
def findRow (s : Store) (table : String) (ident : List (String × String)) :
    Option CacheRow :=
  s.rows.find? (fun r => decide (r.table = table ∧ r.ident = ident))

/-- `DatabaseManager.is_data_fresh`: the row's age in seconds must be
strictly below `hours * 3600`; a missing row is never fresh. -/
def is_data_fresh (s : Store) (table : String) (ident : List (String × String))
    (hours : ℤ) (now : ℤ) : Bool :=
  match findRow s table ident with
  | none => false
  | some r => decide (now - r.created_at < hours * 3600)

/-- `DatabaseManager.get_cached_data`: freshness-gated read (the default
freshness window of 1 hour is what the source call site uses). -/
def get_cached_data (s : Store) (table : String) (ident : List (String × String))
    (now : ℤ) : Option String :=
  if is_data_fresh s table ident 1 now then (findRow s table ident).map CacheRow.payload
  else none

/-- `DatabaseManager.cache_data`: `INSERT OR REPLACE` keyed on the
identifying columns, stamping `created_at` with the current time. -/
def cache_data (s : Store) (table : String) (ident : List (String × String))
    (payload : String) (now : ℤ) : Store :=
  ⟨{ table := table, ident := ident, payload := payload, created_at := now } ::
    s.rows.filter (fun r => !(decide (r.table = table ∧ r.ident = ident)))⟩

/-! ### src/api_client.py — TokenTerminalAPI -/

/-- A storage-layer failure (a raised sqlite exception). -/
inductive StorageError where
  | storageError
deriving DecidableEq

/-- The database handle: the store plus whether the storage layer is in a
state where writes raise (e.g. read-only file, disk full). -/
structure DB where
  store : Store
  writeFails : Bool
deriving DecidableEq

/-- Effectful `cache_data`: `cursor.execute` of the INSERT raises iff the
storage layer fails writes; nothing in the source catches this. -/
def cache_dataE (db : DB) (table : String) (ident : List (String × String))
    (payload : String) (now : ℤ) : Except StorageError DB :=
  if db.writeFails then .error .storageError
  else .ok { store := cache_data db.store table ident payload now,
             writeFails := db.writeFails }

/-- Cache key of `get_financial_statement`. -/
def fsKey (p g : String) : List (String × String) :=
  [("project_slug", p), ("granularity", g)]

/-- Cache key of `get_metrics_breakdown`. -/
def mbKey (p : String) : List (String × String) := [("project_slug", p)]

/-- Cache key of `get_time_series`. -/
def tsKey (p m : String) : List (String × String) :=
  [("project_slug", p), ("metric_id", m)]

/-- `TokenTerminalAPI.get_financial_statement`, with the upstream response
(`_make_request` result) passed in as `upstream`. -/
def get_financial_statement (db : DB) (project_slug granularity : String)
    (use_cache : Bool) (upstream : Option String) (now : ℤ) :
    Except StorageError (DB × Option String) :=
  match (if use_cache
         then get_cached_data db.store "financial_statements"
                (fsKey project_slug granularity) now
         else none) with
  | some cached => .ok (db, some cached)
  | none =>
    match upstream with
    | some data =>
      if use_cache then
        match cache_dataE db "financial_statements"
                (fsKey project_slug granularity) data now with
        | .ok db2 => .ok (db2, some data)
        | .error e => .error e
      else .ok (db, some data)
    | none => .ok (db, none)

/-- `TokenTerminalAPI.get_metrics_breakdown`, same shape. -/
def get_metrics_breakdown (db : DB) (project_slug : String) (use_cache : Bool)
    (upstream : Option String) (now : ℤ) :
    Except StorageError (DB × Option String) :=
  match (if use_cache
         then get_cached_data db.store "metrics_breakdown" (mbKey project_slug) now
         else none) with
  | some cached => .ok (db, some cached)
  | none =>
    match upstream with
    | some data =>
      if use_cache then
        match cache_dataE db "metrics_breakdown" (mbKey project_slug) data now with
        | .ok db2 => .ok (db2, some data)
        | .error e => .error e
      else .ok (db, some data)
    | none => .ok (db, none)

/-- `TokenTerminalAPI.get_time_series`, same shape. -/
def get_time_series (db : DB) (metric_id project_slug : String) (use_cache : Bool)
    (upstream : Option String) (now : ℤ) :
    Except StorageError (DB × Option String) :=
  match (if use_cache
         then get_cached_data db.store "time_series" (tsKey project_slug metric_id) now
         else none) with
  | some cached => .ok (db, some cached)
  | none =>
    match upstream with
    | some data =>
      if use_cache then
        match cache_dataE db "time_series" (tsKey project_slug metric_id) data now with
        | .ok db2 => .ok (db2, some data)
        | .error e => .error e
      else .ok (db, some data)
    | none => .ok (db, none)

/-- One upstream answer to one attempt of `_make_request`. -/
inductive Resp where
  | ok (payload : String)
  | status (code : ℕ)
  | exn
deriving DecidableEq

/-- Observable events of `_make_request`: an HTTP request being issued, or a
`time.sleep` of the given number of seconds. -/
inductive REvent where
  | req
  | wait (seconds : ℕ)
deriving DecidableEq

/-- The `for attempt in range(3)` loop of `TokenTerminalAPI._make_request`:
200 returns the body; 429 sleeps `2 ** attempt` then retries; any other
status returns `None` at once; a transport exception sleeps 1s (except after
the final attempt) and retries. Returns the event trace and the result. -/
def attemptLoop (resp : ℕ → Resp) : List ℕ → List REvent × Option String
  | [] => ([], none)
  | a :: rest =>
    match resp a with
    | .ok payload => ([.req], some payload)
    | .status code =>
      if code = 429 then
        let next := attemptLoop resp rest
        (.req :: .wait (2 ^ a) :: next.1, next.2)
      else ([.req], none)
    | .exn =>
      if a < 2 then
        let next := attemptLoop resp rest
        (.req :: .wait 1 :: next.1, next.2)
      else
        let next := attemptLoop resp rest
        (.req :: next.1, next.2)

/-- `TokenTerminalAPI._make_request` with the upstream behaviour `resp`
indexed by attempt number. -/
def make_request (resp : ℕ → Resp) : List REvent × Option String :=
  attemptLoop resp [0, 1, 2]

/-! ### src/data_processor.py — DataProcessor -/

/-- `DataProcessor.format_number`: suffix formatting with thresholds on the
absolute value; `pre` is the currency marker argument (source name
shadows a reserved word here). `none` models Python None/NaN. -/
def format_number (value : Option ℚ) (pre : String) : String :=
  match value with
  | none => "N/A"
  | some v =>
    if 1000000000 ≤ |v| then pre ++ fmtFixed (v / 1000000000) 2 ++ "B"
    else if 1000000 ≤ |v| then pre ++ fmtFixed (v / 1000000) 2 ++ "M"
    else if 1000 ≤ |v| then pre ++ fmtFixed (v / 1000) 2 ++ "K"
    else pre ++ fmtFixed v 2

/-- `DataProcessor.format_percentage`: multiply the fraction by 100; a plus
sign only when the percentage is strictly positive. -/
def format_percentage (value : Option ℚ) : String :=
  match value with
  | none => "N/A"
  | some v =>
    let percentage := v * 100
    if 0 < percentage then "+" ++ fmtFixed percentage 1 ++ "%"
    else fmtFixed percentage 1 ++ "%"

/-- Python `str.replace('_', ' ')` for single characters. -/
def underscoreToSpace (s : String) : String :=
  String.mk (s.data.map (fun c => if c = '_' then ' ' else c))

/-- Python `str.title()` on char lists: a letter is uppercased when the
previous character is not a letter, lowercased otherwise. -/
def titleChars : Bool → List Char → List Char
  | _, [] => []
  | prevAlpha, c :: cs =>
    if c.isAlpha then (if prevAlpha then c.toLower else c.toUpper) :: titleChars true cs
    else c :: titleChars false cs

/-- Python `str.title()`. -/
def titleCase (s : String) : String := String.mk (titleChars false s.data)

/-- One flattened financial-statement record: metric, month bucket (months
are encoded as naturals that order like the parsed "Mon YYYY" labels), and
the value (`none` models NaN). -/
structure FRec where
  metric_id : String
  month : ℕ
  value : Option ℚ
deriving DecidableEq

/-- One cell of `pivot_table(index='metric_id', columns='month_year',
values='value', aggfunc='mean')`: the mean of the non-NaN values of the
(metric, month) group, NaN (`none`) when there is none. -/
def pivotCell (rows : List FRec) (m : String) (mo : ℕ) : Option ℚ :=
  let vs := (rows.filter (fun r => decide (r.metric_id = m ∧ r.month = mo))).filterMap
    FRec.value
  if vs.isEmpty then none else some (vs.sum / (vs.length : ℚ))

/-- A metric survives into `pivot_df.index` iff it has at least one non-NaN
value (pandas drops all-NaN groups). -/
def metricKept (rows : List FRec) (m : String) : Bool :=
  rows.any (fun r => decide (r.metric_id = m) && r.value.isSome)

/-- The distinct month labels sorted most-recent-first
(`sorted(..., reverse=True)` on the parsed labels). -/
def monthsDesc (rows : List FRec) : List ℕ :=
  List.insertionSort (fun a b : ℕ => b ≤ a) (uniqueFirst (rows.map FRec.month))

/-- The cell string built by the inner loop of `create_formatted_table` for
the metric at month position `i` (months listed most-recent-first in
`months`): magnitude via `format_number`, plus a percentage change against
the next-older month when that value exists and is non-zero, with the
indicator chosen by the sign. -/
def cellFor (isFin : Bool) (rows : List FRec) (months : List ℕ) (m : String)
    (i : ℕ) (mo : ℕ) : String :=
  match pivotCell rows m mo with
  | none => "N/A"
  | some value =>
    let pre := if isFin then "$" else ""
    let mag := format_number (some value) pre
    if i + 1 < months.length then
      match months.get? (i + 1) with
      | some prevMo =>
        match pivotCell rows m prevMo with
        | some prev =>
          if prev ≠ 0 then
            let pct := (value - prev) / prev * 100
            if 0 < pct then mag ++ "  🟢(+" ++ fmtFixed pct 1 ++ "%)"
            else if pct < 0 then mag ++ "  🔴(" ++ fmtFixed pct 1 ++ "%)"
            else mag ++ "  ⚪(0.0%)"
          else mag ++ " (N/A)"
        | none => mag ++ " (N/A)"
      | none => mag ++ " (N/A)"
    else mag ++ " (N/A)"

/-- `create_formatted_table` (the nested helper of
`process_financial_statement`): row per kept metric (display-titled, in
first-appearance order), cell per month (most recent first). -/
def create_formatted_table (isFin : Bool) (rows : List FRec) :
    Option (List (String × List (ℕ × String))) :=
  if rows.isEmpty then none
  else
    let metrics := uniqueFirst (rows.map FRec.metric_id)
    let months := monthsDesc rows
    if metrics.isEmpty ∨ months.isEmpty then none
    else
      some ((metrics.filter (fun m => metricKept rows m)).map (fun m =>
        (titleCase (underscoreToSpace m),
         months.enum.map (fun p => (p.2, cellFor isFin rows months m p.1 p.2)))))

/-- One per-project section of a breakdown payload
(`result.data.data[i]`): its `data_id` (absent if the key is missing) and
its metrics mapping, kept opaque as an association list. -/
structure BSection where
  data_id : Option String
  metrics : List (String × ℚ)
deriving DecidableEq

/-- `DataProcessor.process_metrics_breakdown` on the section list of the
payload envelope: the loop returns the metrics of the first section whose
`data_id` equals the literal "raydium". -/
def process_metrics_breakdown (sections : List BSection) :
    Option (List (String × ℚ)) :=
  match sections with
  | [] => none
  | s :: rest =>
    if s.data_id = some "raydium" then some s.metrics
    else process_metrics_breakdown rest

/-! ### Period aggregation (aggregate_daily_to_weekly / _monthly) -/

/-- One time-series record (a DataFrame row); timestamps are day counts
since 1970-01-01. -/
structure Rec where
  data_id : String
  metric_id : String
  value : ℚ
  timestamp : ℕ
deriving DecidableEq

/-- A DataFrame: which columns exist (reading a missing column raises
KeyError) and the rows. -/
structure Frame where
  cols : List String
  rows : List Rec
deriving DecidableEq

/-- A raised pandas KeyError on the named column. -/
inductive PdError where
  | keyError (col : String)
deriving DecidableEq

/-- `to_period('W').start_time` as a day count: the Monday on or before day
`t` (day 0 = Thursday 1970-01-01, so Mondays are days ≡ 4 mod 7; the
truncated subtraction pins days 0-3 to 0, outside any data the source
handles). -/
def weekStart (t : ℕ) : ℕ := t - ((t + 3) % 7)

/-- Civil calendar (year, month) of a day count since 1970-01-01
(Gregorian, era decomposition). -/
def yearMonthOfDay (t : ℕ) : ℕ × ℕ :=
  let z := t + 719468
  let era := z / 146097
  let doe := z % 146097
  let yoe := (doe - doe / 1460 + doe / 36524 - doe / 146096) / 365
  let y := yoe + era * 400
  let doy := doe - (365 * yoe + yoe / 4 - yoe / 100)
  let mp := (5 * doy + 2) / 153
  let m := if mp < 10 then mp + 3 else mp - 9
  (if m ≤ 2 then y + 1 else y, m)

/-- Day count since 1970-01-01 of the first day of month `m` of year `y`
(for dates at or after the epoch). -/
def dayOfMonthStart (y m : ℕ) : ℕ :=
  let y2 := if m ≤ 2 then y - 1 else y
  let era := y2 / 400
  let yoe := y2 % 400
  let mp := if 2 < m then m - 3 else m + 9
  let doy := (153 * mp + 2) / 5
  let doe := yoe * 365 + yoe / 4 - yoe / 100 + doy
  era * 146097 + doe - 719468

/-- `to_period('M').start_time` as a day count: the first day of the month
containing day `t`. -/
def monthStart (t : ℕ) : ℕ :=
  let ym := yearMonthOfDay t
  dayOfMonthStart ym.1 ym.2

/-- The flow-metric keyword test of the source: does the lowercased metric
identifier contain any of "volume", "fees", "revenue", "user"? -/
def containsKw (m : String) : Bool :=
  ["volume", "fees", "revenue", "user"].any
    (fun kw => hasSub kw.data (lowerStr m).data)

/-- `df['metric_id'].iloc[0]` of a non-empty frame (guarded in the source;
"" stands for the unreachable empty case). -/
def headMetric (rows : List Rec) : String :=
  match rows with
  | [] => ""
  | r :: _ => r.metric_id

/-- `df['data_id'].agg('first')` of a group. -/
def headData (rows : List Rec) : String :=
  match rows with
  | [] => ""
  | r :: _ => r.data_id

/-- The groupby key of a row: (bucket start of its timestamp, metric_id). -/
def keyOf (bucket : ℕ → ℕ) (r : Rec) : ℕ × String := (bucket r.timestamp, r.metric_id)

/-- Ordinal (codepoint) string comparison on char lists, the order pandas
sorts string group keys by. -/
def charsLeB : List Char → List Char → Bool
  | [], _ => true
  | _ :: _, [] => false
  | a :: as, b :: bs =>
    if a.val.toNat = b.val.toNat then charsLeB as bs
    else decide (a.val.toNat < b.val.toNat)

theorem charsLeB_total : ∀ as bs : List Char,
    charsLeB as bs = true ∨ charsLeB bs as = true
  | [], _ => Or.inl rfl
  | _ :: _, [] => Or.inr rfl
  | a :: as, b :: bs => by
    by_cases h : a.val.toNat = b.val.toNat
    · simp only [charsLeB]
      rw [if_pos h, if_pos h.symm]
      exact charsLeB_total as bs
    · simp only [charsLeB]
      rw [if_neg h, if_neg (fun hh => h hh.symm), decide_eq_true_eq,
        decide_eq_true_eq]
      omega

theorem charsLeB_trans : ∀ as bs cs : List Char,
    charsLeB as bs = true → charsLeB bs cs = true → charsLeB as cs = true
  | [], _, _ => fun _ _ => rfl
  | _ :: _, [], _ => fun h _ => by cases h
  | _ :: _, _ :: _, [] => fun _ h => by cases h
  | a :: as, b :: bs, c :: cs => fun h1 h2 => by
    simp only [charsLeB] at h1 h2 ⊢
    by_cases hab : a.val.toNat = b.val.toNat <;>
      by_cases hbc : b.val.toNat = c.val.toNat
    · rw [if_pos hab] at h1
      rw [if_pos hbc] at h2
      rw [if_pos (hab.trans hbc)]
      exact charsLeB_trans as bs cs h1 h2
    · rw [if_pos hab] at h1
      rw [if_neg hbc, decide_eq_true_eq] at h2
      rw [if_neg (by omega : ¬a.val.toNat = c.val.toNat), decide_eq_true_eq]
      omega
    · rw [if_neg hab, decide_eq_true_eq] at h1
      rw [if_pos hbc] at h2
      rw [if_neg (by omega : ¬a.val.toNat = c.val.toNat), decide_eq_true_eq]
      omega
    · rw [if_neg hab, decide_eq_true_eq] at h1
      rw [if_neg hbc, decide_eq_true_eq] at h2
      rw [if_neg (by omega : ¬a.val.toNat = c.val.toNat), decide_eq_true_eq]
      omega

/-- The ordering pandas `groupby` sorts group keys by: week ascending, then
metric_id ascending (ordinal string order). -/
def keyR : ℕ × String → ℕ × String → Prop :=
  fun a b => a.1 < b.1 ∨ (a.1 = b.1 ∧ charsLeB a.2.data b.2.data = true)

instance : DecidableRel keyR := fun a b =>
  inferInstanceAs (Decidable (a.1 < b.1 ∨ (a.1 = b.1 ∧ charsLeB a.2.data b.2.data = true)))

instance : IsTotal (ℕ × String) keyR where
  total a b := by
    rcases Nat.lt_trichotomy a.1 b.1 with h | h | h
    · exact Or.inl (Or.inl h)
    · rcases charsLeB_total a.2.data b.2.data with h2 | h2
      · exact Or.inl (Or.inr ⟨h, h2⟩)
      · exact Or.inr (Or.inr ⟨h.symm, h2⟩)
    · exact Or.inr (Or.inl h)

instance : IsTrans (ℕ × String) keyR where
  trans a b c hab hbc := by
    rcases hab with h1 | ⟨h1, h1s⟩
    · rcases hbc with h2 | ⟨h2, _⟩
      · exact Or.inl (h1.trans h2)
      · exact Or.inl (h2 ▸ h1)
    · rcases hbc with h2 | ⟨h2, h2s⟩
      · exact Or.inl (h1 ▸ h2)
      · exact Or.inr ⟨h1.trans h2, charsLeB_trans _ _ _ h1s h2s⟩

/-- The distinct group keys in the order `groupby(...).reset_index()`
produces them: sorted ascending by (bucket, metric). -/
def sortedKeys (bucket : ℕ → ℕ) (rows : List Rec) : List (ℕ × String) :=
  List.insertionSort keyR (uniqueFirst (rows.map (keyOf bucket)))

/-- The rows of one group, in original order. -/
def groupFor (bucket : ℕ → ℕ) (rows : List Rec) (k : ℕ × String) : List Rec :=
  rows.filter (fun r => decide (keyOf bucket r = k))

/-- Sum of the group's values. -/
def sumVals (g : List Rec) : ℚ := (g.map Rec.value).sum

/-- The groupby reducer: `'sum'` or `'mean'`. -/
def reduceVal (useSum : Bool) (g : List Rec) : ℚ :=
  if useSum then sumVals g else sumVals g / (g.length : ℚ)

/-- The output row of one group: first data_id, the key's metric, the
reduced value, and the bucket start as timestamp. -/
def aggRec (bucket : ℕ → ℕ) (useSum : Bool) (rows : List Rec) (k : ℕ × String) :
    Rec :=
  { data_id := headData (groupFor bucket rows k)
    metric_id := k.2
    value := reduceVal useSum (groupFor bucket rows k)
    timestamp := k.1 }

/-- All output rows, one per distinct (bucket, metric) key in sorted order. -/
def aggRows (bucket : ℕ → ℕ) (useSum : Bool) (rows : List Rec) : List Rec :=
  (sortedKeys bucket rows).map (aggRec bucket useSum rows)

/-- Column list of the returned frame
(`weekly_df[['data_id', 'metric_id', 'value', 'timestamp']]`). -/
def aggCols : List String := ["data_id", "metric_id", "value", "timestamp"]

/-- The common body of `aggregate_daily_to_weekly` / `_monthly`: guard on
None/empty/timestamp/value, pick the reducer once from the FIRST row's
metric_id, then group by (bucket, metric_id); `groupby` raises if
`metric_id` is missing, `.agg` raises if `data_id` is missing. -/
def aggregateBy (bucket : ℕ → ℕ) (df : Option Frame) :
    Except PdError (Option Frame) :=
  match df with
  | none => .ok none
  | some f =>
    if f.rows.isEmpty ∨ "timestamp" ∉ f.cols ∨ "value" ∉ f.cols then .ok (some f)
    else
      let metricFirst := if "metric_id" ∈ f.cols then headMetric f.rows else "unknown"
      let useSum := containsKw metricFirst
      if "metric_id" ∉ f.cols then .error (.keyError "metric_id")
      else if "data_id" ∉ f.cols then .error (.keyError "data_id")
      else .ok (some ⟨aggCols, aggRows bucket useSum f.rows⟩)

/-- `DataProcessor.aggregate_daily_to_weekly`. -/
def aggregate_daily_to_weekly (df : Option Frame) : Except PdError (Option Frame) :=
  aggregateBy weekStart df

/-- `DataProcessor.aggregate_daily_to_monthly`. -/
def aggregate_daily_to_monthly (df : Option Frame) : Except PdError (Option Frame) :=
  aggregateBy monthStart df

/-! ### Contracts written from the specification's words -/

/-- The cache-write contract exactly as claim C2 states it: when the upstream
request succeeds, useCache is true and the cache store misses but its write
fails, the fetch still returns the payload (the write error is swallowed). -/
def WriteFailureSwallowed : Prop :=
  ∀ (db : DB) (p g m data : String) (now : ℤ),
    db.writeFails = true →
    (get_cached_data db.store "financial_statements" (fsKey p g) now = none →
      ∃ db2, get_financial_statement db p g true (some data) now = .ok (db2, some data)) ∧
    (get_cached_data db.store "metrics_breakdown" (mbKey p) now = none →
      ∃ db2, get_metrics_breakdown db p true (some data) now = .ok (db2, some data)) ∧
    (get_cached_data db.store "time_series" (tsKey p m) now = none →
      ∃ db2, get_time_series db m p true (some data) now = .ok (db2, some data))

/-- The aggregation contract exactly as claim C4 states it: each output
group's value is reduced by sum precisely when THAT GROUP's metric
identifier contains a flow keyword, by mean otherwise. -/
def PerGroupReducer : Prop :=
  ∀ (f : Frame), f.cols = aggCols →
    (∀ out, aggregate_daily_to_weekly (some f) = .ok (some out) →
      ∀ r ∈ out.rows,
        r.value = reduceVal (containsKw r.metric_id)
          (groupFor weekStart f.rows (r.timestamp, r.metric_id))) ∧
    (∀ out, aggregate_daily_to_monthly (some f) = .ok (some out) →
      ∀ r ∈ out.rows,
        r.value = reduceVal (containsKw r.metric_id)
          (groupFor monthStart f.rows (r.timestamp, r.metric_id)))

/-- The breakdown-normalization contract exactly as claim C6 states it: the
returned metrics are those of the section whose data_id equals the target
project of the query, whatever that target is. -/
def BreakdownSelectsTarget : Prop :=
  ∀ (target : String) (sections : List BSection),
    process_metrics_breakdown sections =
      (sections.find? (fun s => decide (s.data_id = some target))).map BSection.metrics

/-- percentageLabel exactly as claim C7 states it: a plus sign for every
positive fraction AND for zero ("+0.0%"). -/
def percentageLabelClaim (value : Option ℚ) : String :=
  match value with
  | none => "N/A"
  | some v =>
    if 0 ≤ v * 100 then "+" ++ fmtFixed (v * 100) 1 ++ "%"
    else fmtFixed (v * 100) 1 ++ "%"

/-- percentageLabel as amended: the plus sign only for strictly positive
fractions; zero and negative render without it; missing is "N/A". -/
def percentageLabelAmended (value : Option ℚ) : String :=
  match value with
  | none => "N/A"
  | some v =>
    if 0 < v then "+" ++ fmtFixed (v * 100) 1 ++ "%"
    else fmtFixed (v * 100) 1 ++ "%"

/-- Magnitude formatting exactly as claim C8 states it: thresholds compare
the signed value itself (values ≥ 1e9 as billions, and so on). -/
def magnitudeLabelClaim (value : Option ℚ) (pre : String) : String :=
  match value with
  | none => "N/A"
  | some v =>
    if 1000000000 ≤ v then pre ++ fmtFixed (v / 1000000000) 2 ++ "B"
    else if 1000000 ≤ v then pre ++ fmtFixed (v / 1000000) 2 ++ "M"
    else if 1000 ≤ v then pre ++ fmtFixed (v / 1000) 2 ++ "K"
    else pre ++ fmtFixed v 2

/-- Magnitude formatting as amended: thresholds compare the absolute value;
everything else as the claim says. -/
def magnitudeLabelAmended (value : Option ℚ) (pre : String) : String :=
  match value with
  | none => "N/A"
  | some v =>
    if 1000000000 ≤ |v| then pre ++ fmtFixed (v / 1000000000) 2 ++ "B"
    else if 1000000 ≤ |v| then pre ++ fmtFixed (v / 1000000) 2 ++ "M"
    else if 1000 ≤ |v| then pre ++ fmtFixed (v / 1000) 2 ++ "K"
    else pre ++ fmtFixed v 2

/-- The pivot-cell contract of claim C5, as a function of the cell's own
value and the value of the immediately preceding (older) period: a
sign-indicated percentage change when the previous value exists and is
non-zero, otherwise the magnitude with an N/A marker. -/
def claimCell (pre : String) (value : ℚ) (prevOpt : Option ℚ) : String :=
  match prevOpt with
  | some prev =>
    if prev ≠ 0 then
      let pct := (value - prev) / prev * 100
      if 0 < pct then format_number (some value) pre ++ "  🟢(+" ++ fmtFixed pct 1 ++ "%)"
      else if pct < 0 then format_number (some value) pre ++ "  🔴(" ++ fmtFixed pct 1 ++ "%)"
      else format_number (some value) pre ++ "  ⚪(0.0%)"
    else format_number (some value) pre ++ " (N/A)"
  | none => format_number (some value) pre ++ " (N/A)"

/-- A one-row frame with `timestamp` and `value` columns but no `data_id`
column (claim C10's domain gap). -/
def noDataIdFrame : Frame :=
  ⟨["metric_id", "timestamp", "value"], [⟨"", "price", 1, 4⟩]⟩

/-- The spec's 7-day aggregation example: daily values 1..7 of one metric in
the single week starting day 4 (Monday 1970-01-05). -/
def week7 (m : String) : Frame :=
  ⟨aggCols, (List.range 7).map (fun i => ⟨"raydium", m, ((1 + i : ℕ) : ℚ), 4 + i⟩)⟩

/-! ### Theorems -/

/-- C1: a payload written by cache_data at time T is returned by
get_cached_data at time T' whenever T' - T is under the 1-hour default
freshness window, and treated as a miss as soon as T' - T reaches the
window, although the row still physically exists in the store. -/
theorem cache_freshness_gate (s : Store) (table : String)
    (ident : List (String × String)) (payload : String) (writeT readT : ℤ) :
    (readT - writeT < 3600 →
      get_cached_data (cache_data s table ident payload writeT) table ident readT
        = some payload) ∧
    (3600 ≤ readT - writeT →
      get_cached_data (cache_data s table ident payload writeT) table ident readT
        = none) ∧
    findRow (cache_data s table ident payload writeT) table ident
      = some ⟨table, ident, payload, writeT⟩ := by
  have hfind : findRow (cache_data s table ident payload writeT) table ident =
      some ⟨table, ident, payload, writeT⟩ := by
    unfold findRow cache_data
    exact List.find?_cons_of_pos _ (by simp)
  refine ⟨fun h => ?_, fun h => ?_, hfind⟩
  · have hlt : readT - writeT < 1 * 3600 := by omega
    simp only [get_cached_data, is_data_fresh, hfind, Option.map_some']
    rw [if_pos (by simpa using hlt)]
  · have hge : ¬(readT - writeT < 1 * 3600) := by omega
    simp only [get_cached_data, is_data_fresh, hfind]
    rw [if_neg (by simpa using hge)]

theorem cache_freshness_gate_witness :
    ((100 : ℤ) - 0 < 3600 ∧
      get_cached_data (cache_data ⟨[]⟩ "time_series" [("project_slug", "raydium")] "p" 0)
        "time_series" [("project_slug", "raydium")] 100 = some "p") ∧
    ((3600 : ℤ) ≤ 7200 - 0 ∧
      get_cached_data (cache_data ⟨[]⟩ "time_series" [("project_slug", "raydium")] "p" 0)
        "time_series" [("project_slug", "raydium")] 7200 = none) :=
  ⟨⟨by norm_num, (cache_freshness_gate ⟨[]⟩ _ _ "p" 0 100).1 (by norm_num)⟩,
   ⟨by norm_num, (cache_freshness_gate ⟨[]⟩ _ _ "p" 0 7200).2.1 (by norm_num)⟩⟩

/-- C2 counterexample: with a failing storage layer, an empty cache and a
successful upstream fetch, get_financial_statement propagates the storage
error instead of returning the payload, so the claim's contract is false. -/
theorem write_failure_swallowed_cex : ¬ WriteFailureSwallowed := by
  intro h
  rcases (h ⟨⟨[]⟩, true⟩ "raydium" "month" "fees" "data" 0 rfl).1 rfl with ⟨db2, hdb⟩
  rw [show get_financial_statement ⟨⟨[]⟩, true⟩ "raydium" "month" true (some "data") 0
      = .error .storageError from rfl] at hdb
  exact Except.noConfusion hdb

/-- C2 (amended): when useCache is true, the cache misses, the upstream
fetch succeeds and the cache write fails with a storage error, all three
fetchers propagate the error to their caller — the fetched payload is NOT
returned (the source has no handler around cache_data). -/
theorem write_failure_propagates (db : DB) (p g m data : String) (now : ℤ)
    (hw : db.writeFails = true) :
    (get_cached_data db.store "financial_statements" (fsKey p g) now = none →
      get_financial_statement db p g true (some data) now = .error .storageError) ∧
    (get_cached_data db.store "metrics_breakdown" (mbKey p) now = none →
      get_metrics_breakdown db p true (some data) now = .error .storageError) ∧
    (get_cached_data db.store "time_series" (tsKey p m) now = none →
      get_time_series db m p true (some data) now = .error .storageError) := by
  refine ⟨fun hmiss => ?_, fun hmiss => ?_, fun hmiss => ?_⟩ <;>
    simp [get_financial_statement, get_metrics_breakdown, get_time_series,
      cache_dataE, hw, hmiss]

theorem write_failure_propagates_witness :
    get_financial_statement ⟨⟨[]⟩, true⟩ "raydium" "month" true (some "d") 5
      = .error .storageError :=
  (write_failure_propagates ⟨⟨[]⟩, true⟩ "raydium" "month" "m" "d" 5 rfl).1 rfl

/-- C3: against an upstream that answers 429 on every attempt, _make_request
issues exactly 3 requests, waits 1s before the second and 2s before the
third, performs no further request after the third attempt, and returns
None rather than raising. -/
theorem retry_budget_rate_limited (resp : ℕ → Resp)
    (h : ∀ n, resp n = .status 429) :
    (make_request resp).1 = [.req, .wait 1, .req, .wait 2, .req, .wait 4] ∧
    (make_request resp).1.count .req = 3 ∧
    (make_request resp).2 = none := by
  have e : make_request resp = ([.req, .wait 1, .req, .wait 2, .req, .wait 4], none) := by
    simp [make_request, attemptLoop, h 0, h 1, h 2]
  rw [e]
  exact ⟨rfl, by decide, rfl⟩

theorem retry_budget_rate_limited_witness :
    (make_request (fun _ => .status 429)).1
        = [.req, .wait 1, .req, .wait 2, .req, .wait 4] ∧
    (make_request (fun _ => .status 429)).1.count .req = 3 ∧
    (make_request (fun _ => .status 429)).2 = none :=
  retry_budget_rate_limited (fun _ => .status 429) (fun _ => rfl)

/-- C6 counterexample: for the target project "uniswap" and a payload whose
only section has data_id "uniswap", process_metrics_breakdown returns none
instead of that section's metrics — it does not select the query's target
project. -/
theorem breakdown_target_cex : ¬ BreakdownSelectsTarget := by
  intro h
  exact absurd (h "uniswap" [⟨some "uniswap", [("fees", 1)]⟩]) (by decide)

/-- C6 (amended): process_metrics_breakdown returns verbatim the metrics of
the first section whose data_id equals the LITERAL "raydium" (the project is
hard-coded, not taken from the query), and none when no such section
exists. -/
theorem breakdown_selects_raydium (sections : List BSection) :
    process_metrics_breakdown sections =
      (sections.find? (fun s => decide (s.data_id = some "raydium"))).map
        BSection.metrics := by
  induction sections with
  | nil => rfl
  | cons s rest ih =>
    by_cases h : s.data_id = some "raydium"
    · simp [process_metrics_breakdown, List.find?_cons, h]
    · simp [process_metrics_breakdown, List.find?_cons, h, ih]

/-- C7 counterexample: a zero fraction renders as "0.0%", not the "+0.0%"
the claim requires. -/
theorem format_percentage_zero_cex :
    format_percentage (some 0) = "0.0%" ∧
    percentageLabelClaim (some 0) = "+0.0%" ∧
    format_percentage (some 0) ≠ percentageLabelClaim (some 0) := by decide

/-- C7 (amended): format_percentage multiplies by 100 and prefixes a plus
sign exactly for strictly positive fractions; zero and negative fractions
render without the plus, missing input renders "N/A"; with the spec's
concrete instances. -/
theorem format_percentage_spec :
    (∀ value : Option ℚ, format_percentage value = percentageLabelAmended value) ∧
    format_percentage (some (1/2)) = "+50.0%" ∧
    format_percentage (some 0) = "0.0%" ∧
    format_percentage (some (-1/2)) = "-50.0%" ∧
    format_percentage none = "N/A" := by
  refine ⟨fun value => ?_, by decide, by decide, by decide, rfl⟩
  cases value with
  | none => rfl
  | some v =>
    simp only [format_percentage, percentageLabelAmended]
    by_cases h : 0 < v
    · rw [if_pos (by positivity), if_pos h]
    · rw [if_neg ?_, if_neg h]
      rw [not_lt] at h
      exact not_lt.mpr (mul_nonpos_of_nonpos_of_nonneg h (by norm_num))

/-- C8 counterexample: at -1 500 000 000 the code renders "-1.50B" (the
threshold is on the absolute value), while the claim as stated puts every
value below 1e9 in the raw branch, "-1500000000.00". -/
theorem format_number_negative_cex :
    format_number (some (-1500000000)) "" = "-1.50B" ∧
    magnitudeLabelClaim (some (-1500000000)) "" = "-1500000000.00" ∧
    format_number (some (-1500000000)) "" ≠ magnitudeLabelClaim (some (-1500000000)) "" := by
  decide

/-- C8 (amended): format_number applies the billion/million/thousand
thresholds to the absolute value, rendering two decimals with the suffix,
any other value raw with two decimals, missing input as "N/A", and the
currency marker exactly when supplied; with the claim's concrete
instances. -/
theorem format_number_spec :
    (∀ (value : Option ℚ) (pre : String),
      format_number value pre = magnitudeLabelAmended value pre) ∧
    format_number (some 1500000000) "" = "1.50B" ∧
    format_number (some 2300000) "" = "2.30M" ∧
    format_number (some 999) "" = "999.00" ∧
    format_number none "" = "N/A" ∧
    format_number (some 100) "$" = "$100.00" ∧
    format_number (some 100) "" = "100.00" := by
  exact ⟨fun value pre => by cases value <;> rfl,
    by decide, by decide, by decide, rfl, by decide, by decide⟩

/-! ### Properties of the grouping machinery -/

theorem mem_uniqueFirstAux [DecidableEq α] :
    ∀ (l seen : List α) (a : α),
      a ∈ uniqueFirstAux seen l ↔ a ∈ l ∧ a ∉ seen
  | [], _, a => by simp [uniqueFirstAux]
  | b :: rest, seen, a => by
    by_cases hb : b ∈ seen
    · rw [uniqueFirstAux, if_pos hb, mem_uniqueFirstAux rest seen a]
      simp only [List.mem_cons]
      constructor
      · exact fun ⟨h1, h2⟩ => ⟨Or.inr h1, h2⟩
      · rintro ⟨h1 | h1, h2⟩
        · exact absurd (h1 ▸ hb) h2
        · exact ⟨h1, h2⟩
    · rw [uniqueFirstAux, if_neg hb]
      simp only [List.mem_cons, mem_uniqueFirstAux rest (b :: seen) a, List.mem_cons,
        not_or]
      constructor
      · rintro (rfl | ⟨h1, h2, h3⟩)
        · exact ⟨Or.inl rfl, hb⟩
        · exact ⟨Or.inr h1, h3⟩
      · rintro ⟨rfl | h1, h2⟩
        · exact Or.inl rfl
        · by_cases hab : a = b
          · exact Or.inl hab
          · exact Or.inr ⟨h1, hab, h2⟩

theorem nodup_uniqueFirstAux [DecidableEq α] :
    ∀ (l seen : List α), (uniqueFirstAux seen l).Nodup
  | [], _ => List.nodup_nil
  | b :: rest, seen => by
    by_cases hb : b ∈ seen
    · rw [uniqueFirstAux, if_pos hb]
      exact nodup_uniqueFirstAux rest seen
    · rw [uniqueFirstAux, if_neg hb]
      refine List.Nodup.cons ?_ (nodup_uniqueFirstAux rest (b :: seen))
      intro hmem
      exact ((mem_uniqueFirstAux rest (b :: seen) b).mp hmem).2 (List.mem_cons_self _ _)

theorem uniqueFirstAux_eq_self [DecidableEq α] :
    ∀ (l seen : List α), l.Nodup → (∀ a ∈ l, a ∉ seen) → uniqueFirstAux seen l = l
  | [], _, _, _ => rfl
  | b :: rest, seen, hnd, hdisj => by
    rw [uniqueFirstAux, if_neg (hdisj b (List.mem_cons_self _ _))]
    congr 1
    refine uniqueFirstAux_eq_self rest (b :: seen) (List.Nodup.of_cons hnd) ?_
    intro a ha hs
    rcases List.mem_cons.mp hs with rfl | hs
    · exact (List.nodup_cons.mp hnd).1 ha
    · exact hdisj a (List.mem_cons_of_mem _ ha) hs

theorem mem_uniqueFirst [DecidableEq α] (l : List α) (a : α) :
    a ∈ uniqueFirst l ↔ a ∈ l := by
  rw [uniqueFirst, mem_uniqueFirstAux]
  simp

theorem nodup_uniqueFirst [DecidableEq α] (l : List α) : (uniqueFirst l).Nodup :=
  nodup_uniqueFirstAux l []

theorem uniqueFirst_eq_self [DecidableEq α] (l : List α) (hnd : l.Nodup) :
    uniqueFirst l = l :=
  uniqueFirstAux_eq_self l [] hnd (fun a _ => List.not_mem_nil a)

theorem filter_key_singleton {α β : Type} [DecidableEq β] (f : α → β) :
    ∀ (l : List α), (l.map f).Nodup → ∀ r ∈ l,
      l.filter (fun x => decide (f x = f r)) = [r]
  | [], _, r, hr => absurd hr (List.not_mem_nil r)
  | a :: rest, hnd, r, hr => by
    have hnd2 : (f a ∉ rest.map f) ∧ (rest.map f).Nodup :=
      List.nodup_cons.mp (by simpa using hnd)
    rcases List.mem_cons.mp hr with rfl | hr
    · rw [List.filter_cons_of_pos (by simp)]
      congr 1
      rw [List.filter_eq_nil_iff]
      intro x hx
      simp only [decide_eq_true_eq]
      intro hfx
      exact hnd2.1 (hfx ▸ List.mem_map_of_mem f hx)
    · rw [List.filter_cons_of_neg ?_]
      · exact filter_key_singleton f rest hnd2.2 r hr
      · simp only [decide_eq_true_eq]
        intro hfa
        exact hnd2.1 (hfa ▸ List.mem_map_of_mem f hr)

theorem length_filter_key {α β : Type} [DecidableEq β] (g : β → α) (proj : α → β) :
    ∀ (keys : List β), (∀ k ∈ keys, proj (g k) = k) → keys.Nodup → ∀ k : β,
      ((keys.map g).filter (fun r => decide (proj r = k))).length =
        if k ∈ keys then 1 else 0
  | [], _, _, k => by simp
  | k0 :: rest, hproj, hnd, k => by
    have hnd2 := List.nodup_cons.mp hnd
    rw [List.map_cons]
    by_cases hk : k0 = k
    · subst hk
      rw [List.filter_cons_of_pos (by simp [hproj k0 (List.mem_cons_self _ _)])]
      rw [List.length_cons,
        length_filter_key g proj rest
          (fun k hk => hproj k (List.mem_cons_of_mem _ hk)) hnd2.2 k0,
        if_neg hnd2.1, if_pos (List.mem_cons_self _ _)]
    · rw [List.filter_cons_of_neg
        (by simp [hproj k0 (List.mem_cons_self _ _), hk])]
      rw [length_filter_key g proj rest
          (fun k hk => hproj k (List.mem_cons_of_mem _ hk)) hnd2.2 k]
      by_cases hmem : k ∈ rest
      · rw [if_pos hmem, if_pos (List.mem_cons_of_mem _ hmem)]
      · rw [if_neg hmem, if_neg ?_]
        intro hc2
        rcases List.mem_cons.mp hc2 with rfl | hc2
        · exact hk rfl
        · exact hmem hc2

theorem mem_sortedKeys (bucket : ℕ → ℕ) (rows : List Rec) (k : ℕ × String) :
    k ∈ sortedKeys bucket rows ↔ k ∈ rows.map (keyOf bucket) := by
  rw [sortedKeys, List.mem_insertionSort, mem_uniqueFirst]

theorem nodup_sortedKeys (bucket : ℕ → ℕ) (rows : List Rec) :
    (sortedKeys bucket rows).Nodup :=
  (List.perm_insertionSort keyR _).nodup_iff.mpr (nodup_uniqueFirst _)

theorem sorted_sortedKeys (bucket : ℕ → ℕ) (rows : List Rec) :
    List.Sorted keyR (sortedKeys bucket rows) :=
  List.sorted_insertionSort keyR _

theorem sortedKeys_eq_self (bucket : ℕ → ℕ) (rows : List Rec)
    (hnd : (rows.map (keyOf bucket)).Nodup)
    (hsort : List.Sorted keyR (rows.map (keyOf bucket))) :
    sortedKeys bucket rows = rows.map (keyOf bucket) := by
  rw [sortedKeys, uniqueFirst_eq_self _ hnd]
  exact hsort.insertionSort_eq

theorem reduceVal_singleton (useSum : Bool) (r : Rec) :
    reduceVal useSum [r] = r.value := by
  cases useSum <;> simp [reduceVal, sumVals]

theorem aggRows_eq_self (bucket : ℕ → ℕ) (useSum : Bool) (rows : List Rec)
    (hfix : ∀ r ∈ rows, bucket r.timestamp = r.timestamp)
    (hnd : (rows.map (keyOf bucket)).Nodup)
    (hsort : List.Sorted keyR (rows.map (keyOf bucket))) :
    aggRows bucket useSum rows = rows := by
  unfold aggRows
  rw [sortedKeys_eq_self bucket rows hnd hsort, List.map_map]
  have hpt : ∀ r ∈ rows, (aggRec bucket useSum rows ∘ keyOf bucket) r = r := by
    intro r hr
    have hgrp : groupFor bucket rows (keyOf bucket r) = [r] :=
      filter_key_singleton (keyOf bucket) rows hnd r hr
    show aggRec bucket useSum rows (keyOf bucket r) = r
    unfold aggRec
    rw [hgrp, reduceVal_singleton]
    cases r with
    | mk d m v t =>
      have ht : bucket t = t := hfix _ hr
      simp [headData, keyOf, ht]
  rw [List.map_congr_left hpt, List.map_id']

theorem mem_sortedKeys_decomp (bucket : ℕ → ℕ) (rows : List Rec)
    (k : ℕ × String) (hk : k ∈ sortedKeys bucket rows) :
    ∃ r ∈ rows, k = keyOf bucket r := by
  rw [mem_sortedKeys] at hk
  obtain ⟨r, hr, hkr⟩ := List.mem_map.mp hk
  exact ⟨r, hr, hkr.symm⟩

theorem map_keyOf_aggRows (bucket : ℕ → ℕ)
    (hb : ∀ t, bucket (bucket t) = bucket t) (useSum : Bool) (rows : List Rec) :
    (aggRows bucket useSum rows).map (keyOf bucket) = sortedKeys bucket rows := by
  unfold aggRows
  rw [List.map_map]
  have hpt : ∀ k ∈ sortedKeys bucket rows,
      (keyOf bucket ∘ aggRec bucket useSum rows) k = k := by
    intro k hk
    obtain ⟨r, _, rfl⟩ := mem_sortedKeys_decomp bucket rows k hk
    show keyOf bucket (aggRec bucket useSum rows (keyOf bucket r)) = keyOf bucket r
    unfold keyOf aggRec
    simp only
    rw [hb]
  rw [List.map_congr_left hpt, List.map_id']

theorem aggregateBy_fixed (bucket : ℕ → ℕ) (f : Frame)
    (hcols : f.cols = aggCols)
    (hfix : ∀ r ∈ f.rows, bucket r.timestamp = r.timestamp)
    (hnd : (f.rows.map (keyOf bucket)).Nodup)
    (hsort : List.Sorted keyR (f.rows.map (keyOf bucket))) :
    aggregateBy bucket (some f) = .ok (some f) := by
  obtain ⟨cols, rows⟩ := f
  simp only at hcols hfix hnd hsort
  subst hcols
  by_cases hrows : rows.isEmpty
  · rw [aggregateBy, if_pos (Or.inl hrows)]
  · rw [aggregateBy, if_neg (by simp [hrows, aggCols]),
      if_neg (by simp [aggCols]), if_neg (by simp [aggCols])]
    rw [aggRows_eq_self bucket _ rows hfix hnd hsort]

theorem rows_aggregateBy (bucket : ℕ → ℕ) (f : Frame)
    (hcols : f.cols = aggCols) (hne : ¬f.rows.isEmpty) :
    aggregateBy bucket (some f) =
      .ok (some ⟨aggCols,
        aggRows bucket (containsKw (headMetric f.rows)) f.rows⟩) := by
  obtain ⟨cols, rows⟩ := f
  simp only at hcols hne
  subst hcols
  rw [aggregateBy, if_neg (by simp [hne, aggCols]),
    if_neg (by simp [aggCols]), if_neg (by simp [aggCols]),
    if_pos (by simp [aggCols])]

theorem aggregateBy_idem (bucket : ℕ → ℕ)
    (hb : ∀ t, bucket (bucket t) = bucket t) (f : Frame)
    (hcols : f.cols = aggCols) :
    (aggregateBy bucket (some f)).bind (aggregateBy bucket) =
      aggregateBy bucket (some f) := by
  by_cases hrows : f.rows.isEmpty
  · have hguard : aggregateBy bucket (some f) = .ok (some f) := by
      obtain ⟨cols, rows⟩ := f
      rw [aggregateBy, if_pos (Or.inl hrows)]
    rw [hguard]
    show aggregateBy bucket (some f) = Except.ok (some f)
    exact hguard
  · rw [rows_aggregateBy bucket f hcols hrows]
    have hout : aggregateBy bucket
        (some ⟨aggCols, aggRows bucket (containsKw (headMetric f.rows)) f.rows⟩) =
        .ok (some ⟨aggCols, aggRows bucket (containsKw (headMetric f.rows)) f.rows⟩) := by
      refine aggregateBy_fixed bucket _ rfl ?_ ?_ ?_
      · intro r hr
        obtain ⟨k, hk, rfl⟩ := List.mem_map.mp hr
        obtain ⟨r0, _, rfl⟩ := mem_sortedKeys_decomp bucket f.rows k hk
        exact hb r0.timestamp
      · rw [map_keyOf_aggRows bucket hb]
        exact nodup_sortedKeys bucket f.rows
      · rw [map_keyOf_aggRows bucket hb]
        exact sorted_sortedKeys bucket f.rows
    show aggregateBy bucket
        (some ⟨aggCols, aggRows bucket (containsKw (headMetric f.rows)) f.rows⟩) = _
    exact hout

theorem weekStart_idem (t : ℕ) : weekStart (weekStart t) = weekStart t := by
  unfold weekStart
  omega

theorem aggregateBy_groups (bucket : ℕ → ℕ) (f : Frame) (hc : f.cols = aggCols)
    (hne : ¬f.rows.isEmpty) :
    ∃ out, aggregateBy bucket (some f) = .ok (some out) ∧
      out.cols = aggCols ∧
      (∀ k : ℕ × String,
        (out.rows.filter
            (fun r => decide ((r.timestamp, r.metric_id) = k))).length =
          if k ∈ f.rows.map (keyOf bucket) then 1 else 0) ∧
      (∀ r ∈ out.rows,
        r.value = reduceVal (containsKw (headMetric f.rows))
            (groupFor bucket f.rows (r.timestamp, r.metric_id)) ∧
          (r.timestamp, r.metric_id) ∈ f.rows.map (keyOf bucket)) := by
  refine ⟨_, rows_aggregateBy bucket f hc hne, rfl, fun k => ?_, fun r hr => ?_⟩
  · rw [show aggRows bucket (containsKw (headMetric f.rows)) f.rows =
        (sortedKeys bucket f.rows).map
          (aggRec bucket (containsKw (headMetric f.rows)) f.rows) from rfl]
    rw [length_filter_key (aggRec bucket (containsKw (headMetric f.rows)) f.rows)
        (fun r => (r.timestamp, r.metric_id)) (sortedKeys bucket f.rows)
        (fun k _ => rfl) (nodup_sortedKeys bucket f.rows) k]
    by_cases hmem : k ∈ f.rows.map (keyOf bucket)
    · rw [if_pos ((mem_sortedKeys bucket f.rows k).mpr hmem), if_pos hmem]
    · rw [if_neg (fun hc2 => hmem ((mem_sortedKeys bucket f.rows k).mp hc2)),
        if_neg hmem]
  · obtain ⟨k, hk, rfl⟩ := List.mem_map.mp hr
    exact ⟨rfl, (mem_sortedKeys bucket f.rows k).mp hk⟩

/-- C4 counterexample: in a frame whose first record's metric is "price"
but which also carries "trading_volume" records, the trading_volume group
is reduced by mean (1.5), not by the sum (3) the claim requires for a
metric containing "volume". -/
theorem per_group_reducer_cex : ¬ PerGroupReducer := by
  intro h
  have h2 := (h ⟨aggCols, [⟨"raydium", "price", 10, 4⟩, ⟨"raydium", "trading_volume", 1, 4⟩,
        ⟨"raydium", "trading_volume", 2, 5⟩]⟩ rfl).1
    ⟨aggCols, [⟨"raydium", "price", 10, 4⟩, ⟨"raydium", "trading_volume", 3/2, 4⟩]⟩
    (by decide) ⟨"raydium", "trading_volume", 3/2, 4⟩ (by decide)
  exact absurd h2 (by decide)

/-- C4 (amended): both period aggregators group by (bucket start,
metric_id), yielding exactly one row per group whose timestamp is the
bucket start; the reducer — sum when the identifier contains a flow keyword,
mean otherwise — is selected ONCE PER CALL from the first input record's
metric identifier and applied to every group; in particular 7 daily
trading_volume values 1..7 in one week aggregate to 28 and the same values
for price aggregate to 4. -/
theorem aggregation_frame_reducer :
    (∀ f : Frame, f.cols = aggCols → ¬f.rows.isEmpty →
      ∃ out, aggregate_daily_to_weekly (some f) = .ok (some out) ∧
        out.cols = aggCols ∧
        (∀ k : ℕ × String,
          (out.rows.filter
              (fun r => decide ((r.timestamp, r.metric_id) = k))).length =
            if k ∈ f.rows.map (keyOf weekStart) then 1 else 0) ∧
        (∀ r ∈ out.rows,
          r.value = reduceVal (containsKw (headMetric f.rows))
              (groupFor weekStart f.rows (r.timestamp, r.metric_id)) ∧
            (r.timestamp, r.metric_id) ∈ f.rows.map (keyOf weekStart))) ∧
    (∀ f : Frame, f.cols = aggCols → ¬f.rows.isEmpty →
      ∃ out, aggregate_daily_to_monthly (some f) = .ok (some out) ∧
        out.cols = aggCols ∧
        (∀ k : ℕ × String,
          (out.rows.filter
              (fun r => decide ((r.timestamp, r.metric_id) = k))).length =
            if k ∈ f.rows.map (keyOf monthStart) then 1 else 0) ∧
        (∀ r ∈ out.rows,
          r.value = reduceVal (containsKw (headMetric f.rows))
              (groupFor monthStart f.rows (r.timestamp, r.metric_id)) ∧
            (r.timestamp, r.metric_id) ∈ f.rows.map (keyOf monthStart))) ∧
    aggregate_daily_to_weekly (some (week7 "trading_volume")) =
      .ok (some ⟨aggCols, [⟨"raydium", "trading_volume", 28, 4⟩]⟩) ∧
    aggregate_daily_to_weekly (some (week7 "price")) =
      .ok (some ⟨aggCols, [⟨"raydium", "price", 4, 4⟩]⟩) :=
  ⟨fun f hc hne => aggregateBy_groups weekStart f hc hne,
   fun f hc hne => aggregateBy_groups monthStart f hc hne,
   by decide, by decide⟩

theorem aggregation_frame_reducer_witness :
    ∃ out, aggregate_daily_to_weekly
        (some ⟨aggCols, [⟨"raydium", "price", 10, 4⟩]⟩) = .ok (some out) ∧
      out.cols = aggCols ∧
      (∀ k : ℕ × String,
        (out.rows.filter
            (fun r => decide ((r.timestamp, r.metric_id) = k))).length =
          if k ∈ ([⟨"raydium", "price", 10, 4⟩] : List Rec).map (keyOf weekStart)
          then 1 else 0) ∧
      (∀ r ∈ out.rows,
        r.value = reduceVal (containsKw (headMetric [⟨"raydium", "price", 10, 4⟩]))
            (groupFor weekStart [⟨"raydium", "price", 10, 4⟩]
              (r.timestamp, r.metric_id)) ∧
          (r.timestamp, r.metric_id) ∈
            ([⟨"raydium", "price", 10, 4⟩] : List Rec).map (keyOf weekStart)) :=
  aggregation_frame_reducer.1 ⟨aggCols, [⟨"raydium", "price", 10, 4⟩]⟩ rfl (by decide)

/-- C9: aggregating a frame whose records already sit on week starts, one
per (week, metric) and in group-key order, reproduces the same frame; and
on every frame with the aggregation columns, applying
aggregate_daily_to_weekly twice equals applying it once. -/
theorem weekly_aggregation_idempotent :
    (∀ f : Frame, f.cols = aggCols →
      (∀ r ∈ f.rows, weekStart r.timestamp = r.timestamp) →
      (f.rows.map (keyOf weekStart)).Nodup →
      List.Sorted keyR (f.rows.map (keyOf weekStart)) →
      aggregate_daily_to_weekly (some f) = .ok (some f)) ∧
    (∀ f : Frame, f.cols = aggCols →
      (aggregate_daily_to_weekly (some f)).bind aggregate_daily_to_weekly =
        aggregate_daily_to_weekly (some f)) :=
  ⟨fun f hc hfix hnd hsort => aggregateBy_fixed weekStart f hc hfix hnd hsort,
   fun f hc => aggregateBy_idem weekStart weekStart_idem f hc⟩

theorem weekly_aggregation_idempotent_witness :
    aggregate_daily_to_weekly (some ⟨aggCols, [⟨"raydium", "price", 10, 4⟩]⟩) =
      .ok (some ⟨aggCols, [⟨"raydium", "price", 10, 4⟩]⟩) :=
  weekly_aggregation_idempotent.1 ⟨aggCols, [⟨"raydium", "price", 10, 4⟩]⟩ rfl
    (by decide) (by decide) (List.sorted_singleton _)

theorem uniqueFirst_ne_nil [DecidableEq α] {l : List α} (h : l ≠ []) :
    uniqueFirst l ≠ [] := by
  obtain ⟨a, rest, rfl⟩ := List.exists_cons_of_ne_nil h
  rw [uniqueFirst, uniqueFirstAux, if_neg (List.not_mem_nil a)]
  exact List.cons_ne_nil _ _

theorem monthsDesc_ne_nil (rows : List FRec) (h : rows ≠ []) :
    monthsDesc rows ≠ [] := by
  unfold monthsDesc
  intro hc
  have hlen := congrArg List.length hc
  rw [List.length_insertionSort] at hlen
  have hmap : rows.map FRec.month ≠ [] := by
    intro hm
    exact h (List.map_eq_nil_iff.mp hm)
  exact uniqueFirst_ne_nil hmap (List.length_eq_zero.mp hlen)

/-- C5: in the formatted financial/operational pivot, every metric row holds
one cell per month (most recent first); a cell whose month has a value and
whose immediately preceding (older) month has a non-zero non-missing value
shows the percentage change (value - prev) / prev * 100 with the indicator
chosen by its sign, and a cell with no previous month or a zero or missing
previous value carries the magnitude with the N/A marker. -/
theorem pivot_cell_percentage_change :
    (∀ (isFin : Bool) (rows : List FRec), rows ≠ [] →
      create_formatted_table isFin rows =
        some (((uniqueFirst (rows.map FRec.metric_id)).filter
            (fun m => metricKept rows m)).map (fun m =>
          (titleCase (underscoreToSpace m),
           (monthsDesc rows).enum.map
             (fun p => (p.2, cellFor isFin rows (monthsDesc rows) m p.1 p.2)))))) ∧
    (∀ (isFin : Bool) (rows : List FRec) (months : List ℕ) (m : String)
        (i mo : ℕ) (v : ℚ), pivotCell rows m mo = some v →
      cellFor isFin rows months m i mo =
        claimCell (if isFin then "$" else "") v
          (if i + 1 < months.length
           then (months.get? (i + 1)).bind (pivotCell rows m)
           else none)) := by
  constructor
  · intro isFin rows h
    simp only [create_formatted_table]
    rw [if_neg (by simpa [List.isEmpty_iff] using h),
      if_neg ?_]
    rintro (h1 | h2)
    · refine uniqueFirst_ne_nil ?_ (List.isEmpty_iff.mp h1)
      intro hm
      exact h (List.map_eq_nil_iff.mp hm)
    · exact monthsDesc_ne_nil rows h (List.isEmpty_iff.mp h2)
  · intro isFin rows months m i mo v hv
    by_cases hlen : i + 1 < months.length
    · cases hget : months.get? (i + 1) with
      | none =>
        simp only [cellFor, claimCell, hv, hget, if_pos hlen, Option.none_bind]
      | some prevMo =>
        cases hp : pivotCell rows m prevMo with
        | none =>
          simp only [cellFor, claimCell, hv, hget, hp, if_pos hlen, Option.some_bind]
        | some prev =>
          simp only [cellFor, claimCell, hv, hget, hp, if_pos hlen, Option.some_bind]
    · simp only [cellFor, claimCell, hv, if_neg hlen]

theorem pivot_cell_percentage_change_witness :
    cellFor true [⟨"fees", 648, some 100⟩, ⟨"fees", 649, some 150⟩]
        [649, 648] "fees" 0 649 = "$150.00  🟢(+50.0%)" ∧
    cellFor true [⟨"fees", 648, some 100⟩, ⟨"fees", 649, some 150⟩]
        [649, 648] "fees" 1 648 = "$100.00 (N/A)" := by
  have hfeb := pivot_cell_percentage_change.2 true
    [⟨"fees", 648, some 100⟩, ⟨"fees", 649, some 150⟩] [649, 648] "fees" 0 649 150
    (by decide)
  have hjan := pivot_cell_percentage_change.2 true
    [⟨"fees", 648, some 100⟩, ⟨"fees", 649, some 150⟩] [649, 648] "fees" 1 648 100
    (by decide)
  rw [hfeb, hjan]
  exact ⟨by decide, by decide⟩

/-- C10: a non-empty frame carrying `timestamp` and `value` (and even
`metric_id`) but no `data_id` column passes the input guard, yet both period
aggregators raise a KeyError on `data_id` instead of returning a result. -/
theorem aggregators_raise_without_data_id :
    noDataIdFrame.rows ≠ [] ∧
    "timestamp" ∈ noDataIdFrame.cols ∧
    "value" ∈ noDataIdFrame.cols ∧
    "data_id" ∉ noDataIdFrame.cols ∧
    aggregate_daily_to_weekly (some noDataIdFrame) = .error (.keyError "data_id") ∧
    aggregate_daily_to_monthly (some noDataIdFrame) = .error (.keyError "data_id") := by
  refine ⟨by decide, by decide, by decide, by decide, by decide, by decide⟩

end Raydium
